import Mathlib

/-!
Verification of the stats orchestration and caching engine of the
Silan-GitHub-Yearbook backend (`backend/app/services/yearbook.py`,
`backend/app/services/filters.py`, `backend/app/repositories/stats.py`,
`backend/app/repositories/token.py`).

The Python code is shallowly embedded: datetimes become a `Date` structure
with proleptic-Gregorian day arithmetic (Python `datetime`), dict-shaped
payloads become structures, the SQLAlchemy stores become explicit lists of
rows threaded through the functions, and exceptions become `Except`.
ISO `YYYY-MM-DD` strings compare lexicographically exactly as the
corresponding dates compare, so string comparisons on such dates in the
source are embedded as the date order `Date.lex`.
-/

/-- A calendar date, as Python's `datetime.date` restricted to the fields the
service uses.  Python month/day values are always in range for dates built by
`datetime`; the embedding does not enforce validity on the structure itself. -/
structure Date where
  year : Nat
  month : Nat
  day : Nat
deriving DecidableEq, Repr

/-- Gregorian leap-year rule, as implemented by Python's `calendar`/`datetime`. -/
def Date.isLeap (y : Nat) : Bool :=
  (y % 4 == 0 && y % 100 != 0) || y % 400 == 0

/-- Number of days in month `m` of year `y` (Python `calendar.monthrange`). -/
def Date.daysInMonth (y m : Nat) : Nat :=
  if m == 2 then (if Date.isLeap y then 29 else 28)
  else if m == 4 || m == 6 || m == 9 || m == 11 then 30
  else 31

/-- Days in the months of year `y` strictly before month `m`. -/
def Date.daysBeforeMonth (y m : Nat) : Nat :=
  (List.range m).foldl (fun acc i => if i == 0 then acc else acc + Date.daysInMonth y i) 0

/-- Proleptic-Gregorian ordinal of a date (Python `date.toordinal`):
`0001-01-01` has ordinal 1.  Used to embed `timedelta` day differences. -/
def Date.toOrdinal (d : Date) : Nat :=
  365 * (d.year - 1) + (d.year - 1) / 4 - (d.year - 1) / 100 + (d.year - 1) / 400
    + Date.daysBeforeMonth d.year d.month + d.day

/-- The previous calendar day (`d - timedelta(days=1)`). -/
def Date.pred (d : Date) : Date :=
  if 1 < d.day then ⟨d.year, d.month, d.day - 1⟩
  else if 1 < d.month then ⟨d.year, d.month - 1, Date.daysInMonth d.year (d.month - 1)⟩
  else ⟨d.year - 1, 12, 31⟩

/-- `d - timedelta(days=n)`. -/
def Date.subDays (d : Date) : Nat → Date
  | 0 => d
  | n + 1 => (Date.pred d).subDays n

/-- The order of dates; equals the lexicographic order of their zero-padded
ISO strings, which is how the source compares date strings. -/
def Date.lex (a b : Date) : Prop :=
  a.year < b.year ∨ (a.year = b.year ∧
    (a.month < b.month ∨ (a.month = b.month ∧ a.day ≤ b.day)))

instance (a b : Date) : Decidable (Date.lex a b) := by
  unfold Date.lex; exact inferInstance

/-- Boolean form of `Date.lex`, used inside executable filters. -/
def Date.ble (a b : Date) : Bool := decide (Date.lex a b)

theorem Date.lex_refl (a : Date) : Date.lex a a := by
  unfold Date.lex; omega

theorem Date.lex_total (a b : Date) : Date.lex a b ∨ Date.lex b a := by
  unfold Date.lex; omega

theorem Date.lex_trans {a b c : Date} (h1 : Date.lex a b) (h2 : Date.lex b c) :
    Date.lex a c := by
  unfold Date.lex at *; omega

theorem Date.lex_antisymm {a b : Date} (h1 : Date.lex a b) (h2 : Date.lex b a) :
    a = b := by
  unfold Date.lex at *
  cases a; cases b
  simp only [Date.mk.injEq]
  simp_all
  omega

theorem Date.pred_ne (d : Date) : Date.pred d ≠ d := by
  cases d with
  | mk y m dd =>
    unfold Date.pred
    dsimp only
    split
    · simp only [ne_eq, Date.mk.injEq]
      omega
    · split
      · simp only [ne_eq, Date.mk.injEq]
        rename_i h1 h2
        simp at h1 h2
        omega
      · simp only [ne_eq, Date.mk.injEq]
        rename_i h1 h2
        simp at h1 h2
        omega

instance : IsTotal Date Date.lex := ⟨Date.lex_total⟩
instance : IsTrans Date Date.lex := ⟨fun _ _ _ => Date.lex_trans⟩

/-- Zero-pad a numeral to two digits (Python `%m`/`%d` formatting). -/
def pad2 (n : Nat) : String := if n < 10 then "0" ++ toString n else toString n

/-- Zero-pad a numeral to four digits (Python `%Y` formatting / `isoformat`). -/
def pad4 (n : Nat) : String :=
  if n < 10 then "000" ++ toString n
  else if n < 100 then "00" ++ toString n
  else if n < 1000 then "0" ++ toString n
  else toString n

/-- `date.isoformat()`: `YYYY-MM-DD`. -/
def Date.iso (d : Date) : String := pad4 d.year ++ "-" ++ pad2 d.month ++ "-" ++ pad2 d.day

/-! ## Payload structures

These mirror the dict shapes produced by `github.py` and consumed by
`filters.py` / `yearbook.py`.  Payload entries the core never inspects
(language stats, organizations) are kept as opaque strings. -/

/-- One `{"date": ..., "count": ...}` entry of `dailyContributions`. -/
structure DayEntry where
  date : Date
  count : Int
deriving DecidableEq, Repr

/-- One entry of `repositoryContributions` (`github.py` repo dicts).  Only the
keys read by the service are modelled; `repo`/`name` are `Option` because the
source reads them with `dict.get`, which yields `None` for a missing key, and
`None` is also a possible GraphQL value. -/
structure Repo where
  repo : Option String
  name : Option String
  count : Int
  stars : Int
deriving DecidableEq, Repr

/-- The raw provider dict (`fetch_user_contributions` output) as consumed by
the filters and `_process_stats`.  `activeDays` is `none` while the key is
absent (provider output); the filters assign it. -/
structure RawData where
  username : Option String
  avatarUrl : Option String
  bio : Option String
  company : Option String
  location : Option String
  followers : Int
  following : Int
  publicRepos : Int
  privateRepos : Int
  totalRepos : Int
  totalContributions : Int
  totalCommits : Int
  pullRequests : Int
  pullRequestReviews : Int
  issues : Int
  dailyContributions : List DayEntry
  repositoryContributions : List Repo
  languageStats : List String
  organizations : List String
  activeDays : Option Nat
deriving DecidableEq, Repr

/-- A `YearbookStats` row (DB model) carrying the union of fields the service
reads and writes.  `updated_at` is a timestamp in seconds, assigned by the
storage layer; `_process_stats` leaves it to the store, so the embedding sets
it to 0 on construction. -/
structure YearbookStats where
  username : String
  year : Nat
  avatar_url : Option String
  bio : Option String
  company : Option String
  location : Option String
  followers : Int
  following : Int
  total_contributions : Int
  total_commits : Int
  pull_requests : Int
  pull_request_reviews : Int
  issues : Int
  longest_streak : Nat
  current_streak : Nat
  active_days : Nat
  repo_count : Nat
  public_repo_count : Int
  private_repo_count : Int
  total_repo_count : Int
  daily_contributions : List DayEntry
  language_stats : List String
  top_repos : List Repo
  organizations : List String
  updated_at : Int
deriving DecidableEq, Repr

/-- A `UserToken` row. -/
structure UserToken where
  username : String
  github_token : String
  is_valid : Bool
  updated_at : Int
deriving DecidableEq, Repr

/-- The camel-case result dict built by `_model_to_dict` and merged by
`_merge_stats_dicts`. -/
structure StatsDict where
  username : String
  year : Nat
  avatarUrl : Option String
  bio : Option String
  company : Option String
  location : Option String
  followers : Int
  following : Int
  totalContributions : Int
  totalCommits : Int
  pullRequests : Int
  pullRequestReviews : Int
  issues : Int
  longestStreak : Nat
  currentStreak : Nat
  activeDays : Nat
  repoCount : Nat
  publicRepoCount : Int
  privateRepoCount : Int
  totalRepoCount : Int
  dailyContributions : List DayEntry
  languageStats : List String
  repositoryContributions : List Repo
  organizations : List String
  cached : Bool
deriving DecidableEq, Repr

/-- Python exceptions relevant to `get_stats`: `ValueError` (caught by the
custom-range `except ValueError` clause) versus everything else that a
provider or store can raise. -/
inductive PyErr where
  | valueError : String → PyErr
  | other : String → PyErr
deriving DecidableEq, Repr

/-- `isinstance(e, ValueError)`. -/
def PyErr.isValueError : PyErr → Bool
  | .valueError _ => true
  | .other _ => false

instance {ε α : Type} [DecidableEq ε] [DecidableEq α] : DecidableEq (Except ε α) := fun a b =>
  match a, b with
  | .ok x, .ok y =>
    if h : x = y then isTrue (by rw [h]) else isFalse (by intro hc; cases hc; exact h rfl)
  | .error x, .error y =>
    if h : x = y then isTrue (by rw [h]) else isFalse (by intro hc; cases hc; exact h rfl)
  | .ok _, .error _ => isFalse (by intro hc; cases hc)
  | .error _, .ok _ => isFalse (by intro hc; cases hc)

/-! ## The daily map and the streak walks

`daily_map = {d["date"]: d["count"] for d in days}` is a Python dict built by
insertion with last-write-wins overwrite and first-insertion key order; it is
embedded as an association list built by `upsert`. -/

/-- Python dict assignment `m[k] = v`: overwrite in place, else append. -/
def upsert (m : List (Date × Int)) (k : Date) (v : Int) : List (Date × Int) :=
  if m.any (fun p => p.1 == k) then
    m.map (fun p => if p.1 == k then (k, v) else p)
  else m ++ [(k, v)]

/-- `{d["date"]: d["count"] for d in days}`. -/
def dictOfDays (days : List DayEntry) : List (Date × Int) :=
  days.foldl (fun m d => upsert m d.date d.count) []

/-- Dict lookup (`daily_map[s]`, guarded by `s in daily_map`). -/
def lookupCount (m : List (Date × Int)) (k : Date) : Option Int :=
  match m with
  | [] => none
  | p :: rest => if p.1 == k then some p.2 else lookupCount rest k

/-- `sum(d['count'] for d in days)`. -/
def sumCounts (days : List DayEntry) : Int :=
  days.foldl (fun acc d => acc + d.count) 0

/-- The backward walk
`while curr in daily_map and daily_map[curr] > 0: run += 1; curr -= 1 day`.
The loop terminates because each successful step consumes a distinct key of
the finite map (the walked dates strictly decrease), so at most `m.length`
iterations succeed; the fuel argument bounds exactly that many steps.  Callers
pass a fuel that is an upper bound of the map size, which makes the fuel-free
semantics exact: after `m.length` successful steps the next lookup fails. -/
def backRun (m : List (Date × Int)) : Nat → Date → Nat
  | 0, _ => 0
  | k + 1, curr =>
    match lookupCount m curr with
    | some c => if 0 < c then 1 + backRun m k (Date.pred curr) else 0
    | none => 0

/-- Sort key order on daily entries: Python `sorted(..., key=lambda x: x["date"])`. -/
def dayLe (a b : DayEntry) : Prop := Date.lex a.date b.date

instance (a b : DayEntry) : Decidable (dayLe a b) := by
  unfold dayLe; exact inferInstance

instance : IsTotal DayEntry dayLe := ⟨fun a b => Date.lex_total a.date b.date⟩
instance : IsTrans DayEntry dayLe := ⟨fun _ _ _ => Date.lex_trans⟩

/-- The streak scan shared (by textual duplication, per the source comment
"dup from _process_stats to avoid drift") by `_process_stats` and
`_merge_stats_dicts`: sort the active days ascending, then fold, incrementing
the running streak when the date is exactly one day after the previous one,
else resetting to 1, and keeping the maximum. -/
def streakLongest (days : List DayEntry) : Nat :=
  let actives := days.filter (fun d => 0 < d.count)
  let sortedActive := List.insertionSort dayLe actives
  let st := sortedActive.foldl
    (fun (acc : Nat × Nat × Option Nat) d =>
      let o := d.date.toOrdinal
      match acc.2.2 with
      | some po => if o = po + 1 then (acc.1, acc.2.1 + 1, some o)
                   else (max acc.1 acc.2.1, 1, some o)
      | none => (max acc.1 acc.2.1, 1, some o))
    (0, 0, none)
  max st.1 st.2.1

/-- Python `sorted(repos, key=lambda x: (x.get('count', 0), x.get('stars', 0)),
reverse=True)` orders by descending lexicographic `(count, stars)`;
`repoGe a b` says `a`'s key is at least `b`'s.  A stable insertion sort by
this non-strict relation reproduces Python's stable descending sort. -/
def repoGe (a b : Repo) : Prop :=
  b.count < a.count ∨ (b.count = a.count ∧ b.stars ≤ a.stars)

instance (a b : Repo) : Decidable (repoGe a b) := by
  unfold repoGe; exact inferInstance

instance : IsTotal Repo repoGe := ⟨by intro a b; unfold repoGe; omega⟩
instance : IsTrans Repo repoGe := ⟨by intro a b c h1 h2; unfold repoGe at *; omega⟩

/-- `sorted(daily_map.keys())[-1]` of `_process_stats`: the last element of the
ascending sort of the dict keys, i.e. the latest date present in the full
daily map. -/
def fullMapAnchor (days : List DayEntry) : Option Date :=
  (List.insertionSort Date.lex ((dictOfDays days).map (·.1))).getLast?

/-- The current-streak computation of `_process_stats` (lines 320-334): walk
backward from the latest date present in the full daily map.  The source
guards with `if daily:`; an empty list yields 0 anyway because the anchor is
`none`. -/
def processCurrent (days : List DayEntry) : Nat :=
  match fullMapAnchor days with
  | none => 0
  | some last => backRun (dictOfDays days) days.length last

/-- The current-streak computation of `_merge_stats_dicts` (lines 218-232):
walk backward from `sorted_active[-1]`, the latest active entry.  The walk of
lines 202-216 stores into `run`, which line 228 immediately reassigns, so its
result is discarded and it is not embedded. -/
def mergeCurrent (filteredDays : List DayEntry) : Nat :=
  let actives := filteredDays.filter (fun d => 0 < d.count)
  let sortedActive := List.insertionSort dayLe actives
  match sortedActive.getLast? with
  | none => 0
  | some lastA => backRun (dictOfDays filteredDays) filteredDays.length lastA.date

/-- The maximum of a list of dates, used by the specification-side streak
description below ("the latest date present in the active-day set"). -/
def listMax : List Date → Option Date
  | [] => none
  | d :: ds =>
    match listMax ds with
    | none => some d
    | some m => if Date.lex d m then some m else some d

/-- Specification-side current streak, following §4.3 of the spec verbatim:
"starting at the latest date present in the active-day set (not today), walk
backward one day at a time while that day exists in the full daily map with
count > 0".  Defined for comparison against the embedded code. -/
def specCurrentStreak (days : List DayEntry) : Nat :=
  let actives := days.filter (fun d => 0 < d.count)
  match listMax (actives.map (·.date)) with
  | none => 0
  | some anchor => backRun (dictOfDays days) days.length anchor

/-! ## Filters (`filters.py`) -/

/-- `DateRangeFilter.apply`.  The constructor parses the bound strings
(`fromisoformat`) and widens the end bound to 23:59:59, so on the date-only
daily entries the comparison is date-inclusive on both ends; the embedding
takes the parsed bounds. -/
def dateRangeFilterApply (startD endD : Date) (data : RawData) : RawData :=
  let filteredDaily := data.dailyContributions.filter
    (fun d => startD.ble d.date && d.date.ble endD)
  { data with
    dailyContributions := filteredDaily
    totalContributions := sumCounts filteredDaily
    activeDays := some (filteredDaily.filter (fun d => 0 < d.count)).length }

/-- `YearFilter.apply`: bounds `Jan 1 .. Dec 31 23:59:59` of the year; note it
assigns `dailyContributions` and `activeDays` but, unlike `DateRangeFilter`,
never reassigns `totalContributions`. -/
def yearFilterApply (year : Nat) (data : RawData) : RawData :=
  let startD : Date := ⟨year, 1, 1⟩
  let endD : Date := ⟨year, 12, 31⟩
  let filteredDaily := data.dailyContributions.filter
    (fun d => startD.ble d.date && d.date.ble endD)
  { data with
    dailyContributions := filteredDaily
    activeDays := some (filteredDaily.filter (fun d => 0 < d.count)).length }

/-! ## `yearbook.py`: processing, dict building, merging -/

/-- `_process_stats`: raw dict to `YearbookStats` row. -/
def processStats (username : String) (year : Nat) (data : RawData) : YearbookStats :=
  let daily := data.dailyContributions
  let activeDays := daily.filter (fun d => 0 < d.count)
  { username := username
    year := year
    avatar_url := data.avatarUrl
    bio := data.bio
    company := data.company
    location := data.location
    followers := data.followers
    following := data.following
    total_contributions := data.totalContributions
    total_commits := data.totalCommits
    pull_requests := data.pullRequests
    pull_request_reviews := data.pullRequestReviews
    issues := data.issues
    longest_streak := streakLongest daily
    current_streak := processCurrent daily
    active_days := activeDays.length
    repo_count := data.repositoryContributions.length
    public_repo_count := data.publicRepos
    private_repo_count := data.privateRepos
    total_repo_count := data.totalRepos
    daily_contributions := daily
    language_stats := data.languageStats
    top_repos := data.repositoryContributions
    organizations := data.organizations
    updated_at := 0 }

/-- `_model_to_dict`: row to camel-case dict, sorting repos by
`(count, stars)` descending. -/
def modelToDict (stats : YearbookStats) (isCached : Bool) : StatsDict :=
  let sortedRepos := List.insertionSort repoGe stats.top_repos
  { username := stats.username
    year := stats.year
    avatarUrl := stats.avatar_url
    bio := stats.bio
    company := stats.company
    location := stats.location
    followers := stats.followers
    following := stats.following
    totalContributions := stats.total_contributions
    totalCommits := stats.total_commits
    pullRequests := stats.pull_requests
    pullRequestReviews := stats.pull_request_reviews
    issues := stats.issues
    longestStreak := stats.longest_streak
    currentStreak := stats.current_streak
    activeDays := stats.active_days
    repoCount := stats.repo_count
    publicRepoCount := stats.public_repo_count
    privateRepoCount := stats.private_repo_count
    totalRepoCount := stats.total_repo_count
    dailyContributions := stats.daily_contributions
    languageStats := stats.language_stats
    repositoryContributions := sortedRepos
    organizations := stats.organizations
    cached := isCached }

/-- Python truthiness of `r.get('repo') or r.get('name')` followed by
`if key:`: an absent key or empty string falls through. -/
def pyRepoKey (r : Repo) : Option String :=
  let norm : Option String → Option String := fun o =>
    match o with
    | some s => if s == "" then none else some s
    | none => none
  match norm r.repo with
  | some s => some s
  | none => norm r.name

/-- Python dict assignment for the repo-merge accumulator `all_repos`. -/
def upsertRepo (m : List (String × Repo)) (k : String) (v : Repo) : List (String × Repo) :=
  if m.any (fun p => p.1 == k) then
    m.map (fun p => if p.1 == k then (k, v) else p)
  else m ++ [(k, v)]

/-- The nested loop of `_merge_stats_dicts` collecting `all_repos.values()`:
last write wins per key, first-insertion key order (Python dict). -/
def collectRepos (statsList : List StatsDict) : List Repo :=
  (statsList.foldl
    (fun m s =>
      s.repositoryContributions.foldl
        (fun m r =>
          match pyRepoKey r with
          | some k => upsertRepo m k r
          | none => m)
        m)
    []).map (·.2)

/-- `_merge_stats_dicts`.  The Python function returns `{}` for an empty input
list, embedded as `none`; otherwise `base = stats_list[-1].copy()` updated
with the merged fields. -/
def mergeStatsDicts (statsList : List StatsDict) (startD endD : Date) : Option StatsDict :=
  match statsList.getLast? with
  | none => none
  | some base =>
    let allDays := statsList.foldl (fun acc s => acc ++ s.dailyContributions) []
    let filteredDays := allDays.filter (fun d => startD.ble d.date && d.date.ble endD)
    let activeDays := filteredDays.filter (fun d => 0 < d.count)
    let mergedRepos := List.insertionSort repoGe (collectRepos statsList)
    some { base with
      totalContributions := sumCounts filteredDays
      dailyContributions := filteredDays
      activeDays := activeDays.length
      longestStreak := streakLongest filteredDays
      currentStreak := mergeCurrent filteredDays
      repositoryContributions := mergedRepos
      repoCount := mergedRepos.length
      cached := statsList.all (·.cached) }

/-! ## `parse_period` -/

/-- `period.isdigit() and len(period) == 4` (digits modelled as ASCII,
the case exercised by the accepted forms). -/
def isFourDigit (s : String) : Bool :=
  s.toList.all Char.isDigit && s.length == 4

/-- `YearbookService.parse_period`, with `today = datetime.utcnow().date()`
passed explicitly.  A raised `ValueError` becomes `Except.error` carrying the
same message. -/
def parsePeriod (today : Date) (period : String) : Except String (String × String) :=
  if period == "pastyear" then .ok ((today.subDays 365).iso, today.iso)
  else if period == "pastmonth" then .ok ((today.subDays 30).iso, today.iso)
  else if period == "pastweek" then .ok ((today.subDays 7).iso, today.iso)
  else if isFourDigit period then .ok (period ++ "-01-01", period ++ "-12-31")
  else .error "Invalid period. Use YYYY, 'pastyear', 'pastmonth', or 'pastweek'."

/-! ## Repositories (`stats.py` / `token.py`)

The store is an explicit list of rows; a read returns the result together
with the store left behind (reads may delete duplicate rows). -/

/-- The shared shape of `StatsRepository.get_cached` and
`TokenRepository.get_by_username`: select the rows matching the key ordered
by `updated_at` descending, delete all but the first when more than one
matched (each `session.delete` removes that row), and return the first.
When only one row matches the fold is empty and the store is unchanged. -/
def readLatest {α : Type} [DecidableEq α] (keyMatch : α → Bool) (upd : α → Int)
    (store : List α) : Option α × List α :=
  let rows := List.insertionSort (fun a b => upd b ≤ upd a) (store.filter keyMatch)
  match rows with
  | [] => (none, store)
  | top :: rest => (some top, rest.foldl (fun st stale => st.erase stale) store)

/-- Key predicate of `StatsRepository.get_cached`. -/
def statsMatch (u : String) (y : Nat) (r : YearbookStats) : Bool :=
  r.username == u && r.year == y

/-- `StatsRepository.get_cached`. -/
def statsGetCached (store : List YearbookStats) (u : String) (y : Nat) :
    Option YearbookStats × List YearbookStats :=
  readLatest (statsMatch u y) (·.updated_at) store

/-- Key predicate of `TokenRepository.get_by_username`
(`username == u AND is_valid == True`). -/
def tokenMatch (u : String) (r : UserToken) : Bool :=
  r.username == u && r.is_valid

/-- `TokenRepository.get_by_username`. -/
def tokenGetByUsername (store : List UserToken) (u : String) :
    Option UserToken × List UserToken :=
  readLatest (tokenMatch u) (·.updated_at) store

/-- `_get_cached_stats`: repository read, then TTL policy.  `nowYear` is
`datetime.utcnow().year` and `now` the same instant as seconds;
`datetime.utcnow() - cached.updated_at < ttl` becomes an `Int` comparison of
second counts (sub-second precision is immaterial to the policy). -/
def getCachedStats (nowYear : Nat) (now : Int) (store : List YearbookStats)
    (u : String) (y : Nat) : Option StatsDict × List YearbookStats :=
  match statsGetCached store u y with
  | (none, st) => (none, st)
  | (some cached, st) =>
    if now - cached.updated_at < (if y < nowYear then (30 * 86400 : Int) else 24 * 3600) then
      (some (modelToDict cached true), st)
    else (none, st.erase cached)

/-! ## `get_stats` orchestration

External collaborators (provider fetches, the cache read result for a given
year) are oracle parameters; cache writes and the user-profile upsert are
fire-and-forget side effects with no influence on the returned value and are
not threaded. -/

/-- Python truthiness of an optional string (`bool(start_date or end_date)`:
`None` and `""` are falsy). -/
def pyTruthy : Option String → Bool
  | some s => !(s == "")
  | none => false

/-- `a or default` on an optional string, with Python falsiness. -/
def pyGetOr (o : Option String) (dflt : String) : String :=
  match o with
  | some s => if s == "" then dflt else s
  | none => dflt

/-- Digits of a numeral (helper for `parseDate`). -/
def parseNatDigits (cs : List Char) : Option Nat :=
  if cs.isEmpty || !(cs.all Char.isDigit) then none
  else some (cs.foldl (fun acc c => acc * 10 + (c.toNat - 48)) 0)

/-- Split a character list at dashes (`s.split("-")` semantics). -/
def splitOnDash (cs : List Char) : List (List Char) :=
  match cs with
  | [] => [[]]
  | c :: rest =>
    let r := splitOnDash rest
    if c == '-' then [] :: r
    else
      match r with
      | [] => [[c]]
      | h :: t => (c :: h) :: t

/-- `datetime.strptime(s, "%Y-%m-%d")`, also standing in for
`datetime.fromisoformat` on date-only strings: three dash-separated numerals
with a calendar-valid month and day; anything else raises `ValueError`,
embedded as `none`. -/
def parseDate (s : String) : Option Date :=
  match (splitOnDash s.toList).map parseNatDigits with
  | [some y, some m, some d] =>
    if 1 ≤ m && m ≤ 12 && 1 ≤ d && d ≤ Date.daysInMonth y m then some ⟨y, m, d⟩
    else none
  | _ => none

/-- `range(s_year, e_year + 1)` as a list. -/
def rangeIncl (s e : Nat) : List Nat :=
  (List.range (e + 1 - s)).map (s + ·)

/-- `asyncio.gather` over already-determined task outcomes: all results in
order, or the exception of a failed task (`gather` propagates the first
raised exception; the embedding picks the first in list order — which error
wins never matters below, only that one propagates). -/
def gatherE {α : Type} : List (Except PyErr α) → Except PyErr (List α)
  | [] => .ok []
  | x :: xs =>
    match x with
    | .error e => .error e
    | .ok v =>
      match gatherE xs with
      | .error e => .error e
      | .ok vs => .ok (v :: vs)

/-- `toString year` for the f-strings `f"{year}-01-01"` / `f"{year}-12-31"`. -/
def natToYearStr (y : Nat) : String := toString y

/-- The plain-year branch of `get_stats` (steps 2-7 with
`is_custom_range = False`): serve the cache read when present (already a
`cached = true` dict via `_model_to_dict` — `cacheHit` is the value of
`_get_cached_stats`, skipped under `force_refresh`), else fetch, apply
`YearFilter`, process, save (side effect) and return with `cached = false`. -/
def getStatsYear (cacheHit : Option StatsDict) (fetch : Except PyErr RawData)
    (username : String) (year : Nat) (forceRefresh : Bool) : Except PyErr StatsDict :=
  match (if forceRefresh then none else cacheHit) with
  | some hit => .ok hit
  | none =>
    match fetch with
    | .error e => .error e
    | .ok raw => .ok (modelToDict (processStats username year (yearFilterApply year raw)) false)

/-- The custom-range fallback of `get_stats` (reached via
`except ValueError: pass`): fetch the whole raw range, then construct
`DateRangeFilter` — whose `fromisoformat` parse of a malformed bound raises a
`ValueError` that now propagates, being outside the `try` — then process and
return with `cached = false`. -/
def fallbackRange (fetch : String → String → Except PyErr RawData)
    (username : String) (year : Nat) (ts te : String) : Except PyErr StatsDict :=
  match fetch ts te with
  | .error e => .error e
  | .ok raw =>
    match parseDate ts, parseDate te with
    | some sd, some ed =>
      .ok (modelToDict (processStats username year (dateRangeFilterApply sd ed raw)) false)
    | _, _ => .error (.valueError "Invalid isoformat string")

/-- `YearbookService.get_stats`.  `cacheHit y` is the `_get_cached_stats`
result for year `y`, `yearFetch y` the provider fetch of the full year `y`,
and `rangeFetch` the provider fetch used by the fallback path.  The custom
branch decomposes the range into per-year recursive plain-year calls, gathers
them and merges; a `ValueError` (from `strptime` or from a gathered task)
falls through to the raw-range fallback, while any other exception
propagates.  The `Option` in the result carries the `{}` returned when the
year range is empty. -/
def getStatsTop (cacheHit : Nat → Option StatsDict) (yearFetch : Nat → Except PyErr RawData)
    (rangeFetch : String → String → Except PyErr RawData)
    (username : String) (year : Nat) (startDate endDate : Option String)
    (forceRefresh : Bool) : Except PyErr (Option StatsDict) :=
  let isCustomRange := pyTruthy startDate || pyTruthy endDate
  let targetStart := pyGetOr startDate (natToYearStr year ++ "-01-01")
  let targetEnd := pyGetOr endDate (natToYearStr year ++ "-12-31")
  if isCustomRange then
    match parseDate targetStart, parseDate targetEnd with
    | some sd, some ed =>
      let years := rangeIncl sd.year ed.year
      match gatherE (years.map (fun y => getStatsYear (cacheHit y) (yearFetch y) username y forceRefresh)) with
      | .ok yearStatsList => .ok (mergeStatsDicts yearStatsList sd ed)
      | .error e =>
        if e.isValueError then (fallbackRange rangeFetch username year targetStart targetEnd).map some
        else .error e
    | _, _ => (fallbackRange rangeFetch username year targetStart targetEnd).map some
  else
    (getStatsYear (cacheHit year) (yearFetch year) username year forceRefresh).map some

/-! ## Theorems -/

/-- Concrete raw dataset for claim C2: one in-year day (count 3) and one
out-of-year day (count 5), with the provider-reported total 8. -/
def c2raw : RawData :=
  { username := some "alice"
    avatarUrl := none, bio := none, company := none, location := none
    followers := 0, following := 0
    publicRepos := 0, privateRepos := 0, totalRepos := 0
    totalContributions := 8, totalCommits := 0
    pullRequests := 0, pullRequestReviews := 0, issues := 0
    dailyContributions := [⟨⟨2023,12,31⟩, 5⟩, ⟨⟨2024,1,1⟩, 3⟩]
    repositoryContributions := [], languageStats := [], organizations := []
    activeDays := none }

/-- C2, counterexample: `YearFilter.apply` never reassigns
`totalContributions`, so on `c2raw` the output still carries the provider
total 8 while the sum of the retained daily counts is 3 — the claimed
recomputation does not happen on the single-year path. -/
theorem claim2_cex :
    (yearFilterApply 2024 c2raw).totalContributions
      ≠ sumCounts ((yearFilterApply 2024 c2raw).dailyContributions)
      ∧ (yearFilterApply 2024 c2raw).totalContributions = 8
      ∧ sumCounts ((yearFilterApply 2024 c2raw).dailyContributions) = 3 := by
  refine ⟨by decide, by decide, by decide⟩

/-- C2 (amended): `DateRangeFilter.apply` returns a copy with
`dailyContributions` restricted to the inclusive bounds, `totalContributions`
recomputed as the sum of the retained counts and `activeDays` recomputed as
the number of retained days with positive count, all other fields unchanged;
`YearFilter.apply` restricts `dailyContributions` to the calendar year and
recomputes `activeDays`, but passes `totalContributions` (and every other
field) through unchanged. -/
theorem claim2_amended (sd ed : Date) (year : Nat) (data : RawData) :
    ((dateRangeFilterApply sd ed data).dailyContributions
        = data.dailyContributions.filter (fun d => sd.ble d.date && d.date.ble ed)
      ∧ (dateRangeFilterApply sd ed data).totalContributions
        = sumCounts ((dateRangeFilterApply sd ed data).dailyContributions)
      ∧ (dateRangeFilterApply sd ed data).activeDays
        = some (((dateRangeFilterApply sd ed data).dailyContributions.filter
            (fun d => 0 < d.count)).length)
      ∧ (dateRangeFilterApply sd ed data).username = data.username
      ∧ (dateRangeFilterApply sd ed data).avatarUrl = data.avatarUrl
      ∧ (dateRangeFilterApply sd ed data).bio = data.bio
      ∧ (dateRangeFilterApply sd ed data).company = data.company
      ∧ (dateRangeFilterApply sd ed data).location = data.location
      ∧ (dateRangeFilterApply sd ed data).followers = data.followers
      ∧ (dateRangeFilterApply sd ed data).following = data.following
      ∧ (dateRangeFilterApply sd ed data).publicRepos = data.publicRepos
      ∧ (dateRangeFilterApply sd ed data).privateRepos = data.privateRepos
      ∧ (dateRangeFilterApply sd ed data).totalRepos = data.totalRepos
      ∧ (dateRangeFilterApply sd ed data).totalCommits = data.totalCommits
      ∧ (dateRangeFilterApply sd ed data).pullRequests = data.pullRequests
      ∧ (dateRangeFilterApply sd ed data).pullRequestReviews = data.pullRequestReviews
      ∧ (dateRangeFilterApply sd ed data).issues = data.issues
      ∧ (dateRangeFilterApply sd ed data).repositoryContributions = data.repositoryContributions
      ∧ (dateRangeFilterApply sd ed data).languageStats = data.languageStats
      ∧ (dateRangeFilterApply sd ed data).organizations = data.organizations)
    ∧ ((yearFilterApply year data).dailyContributions
        = data.dailyContributions.filter
            (fun d => (Date.ble ⟨year,1,1⟩ d.date) && d.date.ble ⟨year,12,31⟩)
      ∧ (yearFilterApply year data).activeDays
        = some (((yearFilterApply year data).dailyContributions.filter
            (fun d => 0 < d.count)).length)
      ∧ (yearFilterApply year data).totalContributions = data.totalContributions
      ∧ (yearFilterApply year data).username = data.username
      ∧ (yearFilterApply year data).avatarUrl = data.avatarUrl
      ∧ (yearFilterApply year data).bio = data.bio
      ∧ (yearFilterApply year data).company = data.company
      ∧ (yearFilterApply year data).location = data.location
      ∧ (yearFilterApply year data).followers = data.followers
      ∧ (yearFilterApply year data).following = data.following
      ∧ (yearFilterApply year data).publicRepos = data.publicRepos
      ∧ (yearFilterApply year data).privateRepos = data.privateRepos
      ∧ (yearFilterApply year data).totalRepos = data.totalRepos
      ∧ (yearFilterApply year data).totalCommits = data.totalCommits
      ∧ (yearFilterApply year data).pullRequests = data.pullRequests
      ∧ (yearFilterApply year data).pullRequestReviews = data.pullRequestReviews
      ∧ (yearFilterApply year data).issues = data.issues
      ∧ (yearFilterApply year data).repositoryContributions = data.repositoryContributions
      ∧ (yearFilterApply year data).languageStats = data.languageStats
      ∧ (yearFilterApply year data).organizations = data.organizations) := by
  constructor
  · repeat constructor
  · repeat constructor

/-- C7: the merged result's `cached` flag is true iff every contributing
per-year result was itself cache-sourced
(`all(s.get('cached', False) for s in stats_list)`). -/
theorem claim7_merge_cached_iff_all (l : List StatsDict) (sd ed : Date) (m : StatsDict)
    (h : mergeStatsDicts l sd ed = some m) :
    m.cached = true ↔ ∀ s ∈ l, s.cached = true := by
  unfold mergeStatsDicts at h
  split at h
  · cases h
  · cases h
    simp

/-- A cache-sourced yearly dict for the C7 witness. -/
def c7a : StatsDict :=
  { username := "alice", year := 2023
    avatarUrl := none, bio := none, company := none, location := none
    followers := 0, following := 0
    totalContributions := 4, totalCommits := 0
    pullRequests := 0, pullRequestReviews := 0, issues := 0
    longestStreak := 1, currentStreak := 1, activeDays := 1, repoCount := 0
    publicRepoCount := 0, privateRepoCount := 0, totalRepoCount := 0
    dailyContributions := [⟨⟨2023,12,31⟩, 4⟩]
    languageStats := [], repositoryContributions := [], organizations := []
    cached := true }

/-- A freshly fetched yearly dict for the C7 witness. -/
def c7b : StatsDict :=
  { c7a with year := 2024, dailyContributions := [⟨⟨2024,1,1⟩, 2⟩], cached := false }

/-- C7 witness: with one fresh year among the inputs the merged `cached` flag
is false; with both inputs cache-sourced it is true. -/
theorem claim7_witness :
    (mergeStatsDicts [c7a, c7b] ⟨2023,1,1⟩ ⟨2024,12,31⟩).map (·.cached) = some false
    ∧ (mergeStatsDicts [c7a, { c7b with cached := true }] ⟨2023,1,1⟩ ⟨2024,12,31⟩).map (·.cached)
      = some true := by
  constructor
  · cases hm : mergeStatsDicts [c7a, c7b] ⟨2023,1,1⟩ ⟨2024,12,31⟩ with
    | none => exact absurd hm (by decide)
    | some m =>
      have h := claim7_merge_cached_iff_all [c7a, c7b] ⟨2023,1,1⟩ ⟨2024,12,31⟩ m hm
      have hfalse : ¬ (∀ s ∈ [c7a, c7b], s.cached = true) := by decide
      have hc : m.cached = false := by
        cases hcv : m.cached
        · rfl
        · exact absurd (h.mp hcv) hfalse
      simp [hc]
  · cases hm : mergeStatsDicts [c7a, { c7b with cached := true }] ⟨2023,1,1⟩ ⟨2024,12,31⟩ with
    | none => exact absurd hm (by decide)
    | some m =>
      have h := claim7_merge_cached_iff_all [c7a, { c7b with cached := true }]
        ⟨2023,1,1⟩ ⟨2024,12,31⟩ m hm
      have hc : m.cached = true := h.mpr (by decide)
      simp [hc]

/-- C8: `parse_period` maps `"pastyear"`, `"pastmonth"`, `"pastweek"` to
`(today - 365/30/7 days, today)`, a four-digit numeral `YYYY` to
`("YYYY-01-01", "YYYY-12-31")`, and raises `ValueError` with the
accepted-forms message on every other input. -/
theorem claim8_parsePeriod_spec (today : Date) (s : String) :
    (s = "pastyear" → parsePeriod today s = .ok ((today.subDays 365).iso, today.iso))
    ∧ (s = "pastmonth" → parsePeriod today s = .ok ((today.subDays 30).iso, today.iso))
    ∧ (s = "pastweek" → parsePeriod today s = .ok ((today.subDays 7).iso, today.iso))
    ∧ (isFourDigit s = true → parsePeriod today s = .ok (s ++ "-01-01", s ++ "-12-31"))
    ∧ (s ≠ "pastyear" → s ≠ "pastmonth" → s ≠ "pastweek" → isFourDigit s = false →
        parsePeriod today s
          = .error "Invalid period. Use YYYY, 'pastyear', 'pastmonth', or 'pastweek'.") := by
  refine ⟨?_, ?_, ?_, ?_, ?_⟩
  · intro hs; subst hs; rfl
  · intro hs; subst hs; rfl
  · intro hs; subst hs; rfl
  · intro hs
    have h1 : (s == "pastyear") = false := by
      cases h : s == "pastyear"
      · rfl
      · exfalso; rw [eq_of_beq h] at hs; exact absurd hs (by decide)
    have h2 : (s == "pastmonth") = false := by
      cases h : s == "pastmonth"
      · rfl
      · exfalso; rw [eq_of_beq h] at hs; exact absurd hs (by decide)
    have h3 : (s == "pastweek") = false := by
      cases h : s == "pastweek"
      · rfl
      · exfalso; rw [eq_of_beq h] at hs; exact absurd hs (by decide)
    unfold parsePeriod
    rw [h1, h2, h3, hs]
    rfl
  · intro h1 h2 h3 h4
    unfold parsePeriod
    rw [beq_false_of_ne h1, beq_false_of_ne h2, beq_false_of_ne h3, h4]
    rfl

/-- C8 witness: the spec's own test vectors, obtained from the theorem at
`today = 2024-06-10`. -/
theorem claim8_witness :
    parsePeriod ⟨2024,6,10⟩ "pastweek" = .ok ("2024-06-03", "2024-06-10")
    ∧ parsePeriod ⟨2024,6,10⟩ "2023" = .ok ("2023-01-01", "2023-12-31")
    ∧ parsePeriod ⟨2024,6,10⟩ "notaperiod"
      = .error "Invalid period. Use YYYY, 'pastyear', 'pastmonth', or 'pastweek'." := by
  refine ⟨?_, ?_, ?_⟩
  · exact ((claim8_parsePeriod_spec ⟨2024,6,10⟩ "pastweek").2.2.1 rfl).trans
      (congrArg Except.ok (by decide))
  · exact ((claim8_parsePeriod_spec ⟨2024,6,10⟩ "2023").2.2.2.1 (by decide)).trans
      (congrArg Except.ok (by decide))
  · exact (claim8_parsePeriod_spec ⟨2024,6,10⟩ "notaperiod").2.2.2.2
      (by decide) (by decide) (by decide) (by decide)

/-- A cached past-year row for claim C6, written at timestamp 0. -/
def c6row : YearbookStats :=
  { username := "alice", year := 2023
    avatar_url := none, bio := none, company := none, location := none
    followers := 0, following := 0
    total_contributions := 4, total_commits := 0
    pull_requests := 0, pull_request_reviews := 0, issues := 0
    longest_streak := 1, current_streak := 1, active_days := 1, repo_count := 0
    public_repo_count := 0, private_repo_count := 0, total_repo_count := 0
    daily_contributions := [⟨⟨2023,12,31⟩, 4⟩]
    language_stats := [], top_repos := [], organizations := []
    updated_at := 0 }

/-- C6, counterexample: the source tests `utcnow() - updated_at < ttl`
(strict), so a past-year record whose age is exactly the 30-day TTL is
treated as a miss, while the claim ("age at most the TTL") would serve it. -/
theorem claim6_cex :
    ((30 * 86400 : Int) - c6row.updated_at ≤ 30 * 86400)
    ∧ c6row.year < 2026
    ∧ (getCachedStats 2026 (30 * 86400) [c6row] "alice" 2023).1 = none := by
  refine ⟨by decide, by decide, by decide⟩

/-- C6 (amended): for a single cached row matching `(username, year)`, the
read returns the row marked `cached = true` iff its age is strictly less
than the TTL — 30 days when the row's year is before the current year, 24
hours otherwise; when the age reaches the TTL the row is deleted and the
read reports a miss.  (A 29-day-old past-year row is served; a 31-day-old
one is a miss.) -/
theorem claim6_amended (nowYear : Nat) (now : Int) (store : List YearbookStats)
    (u : String) (y : Nat) (row : YearbookStats)
    (h : store.filter (statsMatch u y) = [row]) :
    (now - row.updated_at < (if y < nowYear then (30 * 86400 : Int) else 24 * 3600) →
       getCachedStats nowYear now store u y = (some (modelToDict row true), store))
    ∧ ((if y < nowYear then (30 * 86400 : Int) else 24 * 3600) ≤ now - row.updated_at →
       getCachedStats nowYear now store u y = (none, store.erase row)) := by
  have hread : statsGetCached store u y = (some row, store) := by
    unfold statsGetCached readLatest
    rw [h]
    simp [List.insertionSort, List.orderedInsert]
  unfold getCachedStats
  rw [hread]
  constructor
  · intro hlt
    simp only [if_pos hlt]
  · intro hge
    simp only [if_neg (by omega : ¬ (now - row.updated_at
      < (if y < nowYear then (30 * 86400 : Int) else 24 * 3600)))]

/-- C6 witness: the 29-day-old past-year row is served from cache marked
`cached = true`; at 31 days it is deleted and reported as a miss. -/
theorem claim6_witness :
    getCachedStats 2026 (29 * 86400) [c6row] "alice" 2023
      = (some (modelToDict c6row true), [c6row])
    ∧ getCachedStats 2026 (31 * 86400) [c6row] "alice" 2023
      = (none, [c6row].erase c6row) := by
  constructor
  · exact (claim6_amended 2026 (29 * 86400) [c6row] "alice" 2023 c6row (by decide)).1
      (by decide)
  · exact (claim6_amended 2026 (31 * 86400) [c6row] "alice" 2023 c6row (by decide)).2
      (by decide)

theorem append_suffix_ne_empty (a b : String) (hb : b.data ≠ []) : a ++ b ≠ "" := by
  intro hc
  have h2 := congrArg String.data hc
  rw [String.data_append] at h2
  rcases List.append_eq_nil.mp h2 with ⟨_, h4⟩
  exact hb h4

/-- C9: supplying only one of `startDate`/`endDate` still routes the request
through the custom-range machinery, with the missing bound defaulted to
`Jan 1` (missing start) or `Dec 31` (missing end) of the `year` argument:
the call computes exactly what the fully specified custom-range call with
the defaulted bound computes. -/
theorem claim9_single_bound_defaults (cacheF : Nat → Option StatsDict)
    (yearFetch : Nat → Except PyErr RawData)
    (rangeFetch : String → String → Except PyErr RawData) (u : String) (y : Nat)
    (frc : Bool) (s e : String) (hs : s ≠ "") (he : e ≠ "") :
    getStatsTop cacheF yearFetch rangeFetch u y (some s) none frc
      = getStatsTop cacheF yearFetch rangeFetch u y
          (some s) (some (natToYearStr y ++ "-12-31")) frc
    ∧ getStatsTop cacheF yearFetch rangeFetch u y none (some e) frc
      = getStatsTop cacheF yearFetch rangeFetch u y
          (some (natToYearStr y ++ "-01-01")) (some e) frc := by
  have hEnd : (natToYearStr y ++ "-12-31") ≠ "" :=
    append_suffix_ne_empty _ _ (by decide)
  have hStart : (natToYearStr y ++ "-01-01") ≠ "" :=
    append_suffix_ne_empty _ _ (by decide)
  constructor
  · simp [getStatsTop, pyTruthy, pyGetOr, hs, hEnd]
  · simp [getStatsTop, pyTruthy, pyGetOr, he, hStart]

/-- Oracle stubs for the C9 witness. -/
def c9cache : Nat → Option StatsDict := fun _ => none

/-- Provider stub for the C9 witness (plain-year fetches fail). -/
def c9fetch : Nat → Except PyErr RawData := fun _ => .error (.other "network down")

/-- Provider stub for the C9 witness (range fetches fail). -/
def c9range : String → String → Except PyErr RawData := fun _ _ => .error (.other "network down")

/-- C9 witness at `year = 2023` with only a start (resp. only an end) date. -/
theorem claim9_witness :
    getStatsTop c9cache c9fetch c9range "alice" 2023 (some "2023-05-05") none false
      = getStatsTop c9cache c9fetch c9range "alice" 2023
          (some "2023-05-05") (some (natToYearStr 2023 ++ "-12-31")) false
    ∧ getStatsTop c9cache c9fetch c9range "alice" 2023 none (some "2023-05-05") false
      = getStatsTop c9cache c9fetch c9range "alice" 2023
          (some (natToYearStr 2023 ++ "-01-01")) (some "2023-05-05") false := by
  exact claim9_single_bound_defaults c9cache c9fetch c9range "alice" 2023 false
    "2023-05-05" "2023-05-05" (by decide) (by decide)

/-- Cached 2023 result for claim C1: active every day 2023-12-28..12-31, plus
one day before the requested range. -/
def c1y2023 : StatsDict :=
  { username := "alice", year := 2023
    avatarUrl := none, bio := none, company := none, location := none
    followers := 0, following := 0
    totalContributions := 6, totalCommits := 0
    pullRequests := 0, pullRequestReviews := 0, issues := 0
    longestStreak := 4, currentStreak := 4, activeDays := 5, repoCount := 0
    publicRepoCount := 0, privateRepoCount := 0, totalRepoCount := 0
    dailyContributions :=
      [⟨⟨2023,10,15⟩, 2⟩, ⟨⟨2023,12,28⟩, 1⟩, ⟨⟨2023,12,29⟩, 1⟩,
       ⟨⟨2023,12,30⟩, 1⟩, ⟨⟨2023,12,31⟩, 1⟩]
    languageStats := [], repositoryContributions := [], organizations := []
    cached := true }

/-- Cached 2024 result for claim C1: active every day 2024-01-01..01-05, plus
one day after the requested range.  No single year's record can show the
9-day run crossing the boundary. -/
def c1y2024 : StatsDict :=
  { c1y2023 with
    year := 2024
    totalContributions := 8
    longestStreak := 5, currentStreak := 1, activeDays := 6
    dailyContributions :=
      [⟨⟨2024,1,1⟩, 1⟩, ⟨⟨2024,1,2⟩, 1⟩, ⟨⟨2024,1,3⟩, 1⟩,
       ⟨⟨2024,1,4⟩, 1⟩, ⟨⟨2024,1,5⟩, 1⟩, ⟨⟨2024,3,1⟩, 3⟩] }

/-- C1: any merged custom-range result keeps exactly the contributing years'
daily entries with dates inside the inclusive `[start, end]`, recomputes
`totalContributions` as the sum of the retained counts, and recomputes
`longestStreak` by running the streak scan over the merged trimmed day set —
so a run of consecutive active days crossing a year boundary is counted in
full: merging the two years above over `[2023-11-01, 2024-02-01]` yields
`longestStreak ≥ 9`. -/
theorem claim1_merge_range (l : List StatsDict) (sd ed : Date) (m : StatsDict)
    (h : mergeStatsDicts l sd ed = some m) :
    (m.dailyContributions
        = (l.foldl (fun acc s => acc ++ s.dailyContributions) []).filter
            (fun d => sd.ble d.date && d.date.ble ed)
      ∧ m.totalContributions = sumCounts m.dailyContributions
      ∧ m.longestStreak = streakLongest m.dailyContributions)
    ∧ (∃ mm, mergeStatsDicts [c1y2023, c1y2024] ⟨2023,11,1⟩ ⟨2024,2,1⟩ = some mm
        ∧ mm.dailyContributions.length = 9
        ∧ mm.totalContributions = 9
        ∧ 9 ≤ mm.longestStreak) := by
  constructor
  · unfold mergeStatsDicts at h
    split at h
    · cases h
    · cases h
      exact ⟨rfl, rfl, rfl⟩
  · refine ⟨_, rfl, by decide, by decide, by decide⟩

/-- C1 witness: the merge of the concrete 2023/2024 results over
`[2023-11-01, 2024-02-01]` retains exactly the nine in-range entries, sums
them, and reports the year-boundary-crossing streak of length 9. -/
theorem claim1_witness :
    ∃ mm, mergeStatsDicts [c1y2023, c1y2024] ⟨2023,11,1⟩ ⟨2024,2,1⟩ = some mm
      ∧ mm.dailyContributions
          = (([c1y2023, c1y2024].foldl (fun acc s => acc ++ s.dailyContributions) []).filter
              (fun d => (Date.ble ⟨2023,11,1⟩ d.date) && d.date.ble ⟨2024,2,1⟩))
      ∧ mm.totalContributions = sumCounts mm.dailyContributions
      ∧ 9 ≤ mm.longestStreak := by
  cases hm : mergeStatsDicts [c1y2023, c1y2024] ⟨2023,11,1⟩ ⟨2024,2,1⟩ with
  | none => exact absurd hm (by decide)
  | some mm =>
    have h := claim1_merge_range [c1y2023, c1y2024] ⟨2023,11,1⟩ ⟨2024,2,1⟩ mm hm
    obtain ⟨mm', hm', _, _, h9⟩ := h.2
    rw [hm] at hm'
    cases hm'
    exact ⟨mm, rfl, h.1.1, h.1.2.1, h9⟩

theorem filter_erase_neg {α : Type} [DecidableEq α] (p : α → Bool) (a : α) (l : List α)
    (ha : p a = false) : (l.erase a).filter p = l.filter p := by
  induction l with
  | nil => rfl
  | cons x xs ih =>
    rw [List.erase_cons]
    by_cases hx : x = a
    · subst hx
      rw [if_pos (by simp), List.filter_cons_of_neg (by simp [ha])]
    · rw [if_neg (by simp [hx])]
      cases hpx : p x
      · rw [List.filter_cons_of_neg (by simp [hpx]), List.filter_cons_of_neg (by simp [hpx]), ih]
      · rw [List.filter_cons_of_pos hpx, List.filter_cons_of_pos hpx, ih]

theorem filter_foldl_erase_neg {α : Type} [DecidableEq α] (p : α → Bool) (del : List α) :
    ∀ store : List α, (∀ x ∈ del, p x = false) →
      (del.foldl (fun st stale => st.erase stale) store).filter p = store.filter p := by
  induction del with
  | nil => intro store _; rfl
  | cons d ds ih =>
    intro store hdel
    rw [List.foldl_cons, ih (store.erase d) (fun x hx => hdel x (by simp [hx])),
      filter_erase_neg p d store (hdel d (by simp))]

theorem count_filter_pos {α : Type} [DecidableEq α] (p : α → Bool) (l : List α) (a : α)
    (h : p a = true) : (l.filter p).count a = l.count a := by
  induction l with
  | nil => rfl
  | cons x xs ih =>
    cases hpx : p x
    · rw [List.filter_cons_of_neg (by simp [hpx])]
      have hxa : (x == a) = false := by
        cases hbe : x == a
        · rfl
        · exfalso; rw [eq_of_beq hbe, h] at hpx; cases hpx
      rw [List.count_cons, ih, hxa]
      simp
    · rw [List.filter_cons_of_pos hpx, List.count_cons, List.count_cons, ih]

theorem count_filter_neg {α : Type} [DecidableEq α] (p : α → Bool) (l : List α) (a : α)
    (h : p a = false) : (l.filter p).count a = 0 := by
  rw [List.count_eq_zero]
  intro hmem
  have := List.of_mem_filter hmem
  rw [h] at this
  cases this

theorem count_foldl_erase {α : Type} [DecidableEq α] (del : List α) :
    ∀ (store : List α) (a : α),
      (del.foldl (fun st stale => st.erase stale) store).count a
        = store.count a - del.count a := by
  induction del with
  | nil => intro store a; simp
  | cons d ds ih =>
    intro store a
    rw [List.foldl_cons, ih (store.erase d) a, List.count_erase, List.count_cons]
    cases hda : d == a
    · simp
    · simp
      omega

/-- Specification of the shared read-and-reconcile shape of
`StatsRepository.get_cached` / `TokenRepository.get_by_username`: when at
least one row matches the key, the read returns a matching row with maximal
`updated_at`, leaves exactly that row as the only matching row in storage,
and leaves every non-matching row untouched. -/
theorem readLatest_reconciles {α : Type} [DecidableEq α] (keyMatch : α → Bool)
    (upd : α → Int) (store : List α) (h : store.filter keyMatch ≠ []) :
    ∃ top, (readLatest keyMatch upd store).1 = some top
      ∧ top ∈ store.filter keyMatch
      ∧ (∀ x ∈ store.filter keyMatch, upd x ≤ upd top)
      ∧ (readLatest keyMatch upd store).2.filter keyMatch = [top]
      ∧ (readLatest keyMatch upd store).2.filter (fun r => !(keyMatch r))
          = store.filter (fun r => !(keyMatch r)) := by
  haveI : IsTotal α (fun a b : α => upd b ≤ upd a) :=
    ⟨fun a b => (Int.le_total (upd a) (upd b)).symm⟩
  haveI : IsTrans α (fun a b : α => upd b ≤ upd a) :=
    ⟨fun _ _ _ hab hbc => le_trans hbc hab⟩
  have hperm := List.perm_insertionSort (fun a b : α => upd b ≤ upd a) (store.filter keyMatch)
  have hsorted := List.sorted_insertionSort (fun a b : α => upd b ≤ upd a) (store.filter keyMatch)
  cases hrow : List.insertionSort (fun a b : α => upd b ≤ upd a) (store.filter keyMatch) with
  | nil =>
    rw [hrow] at hperm
    exact absurd (hperm.symm.eq_nil) h
  | cons top rest =>
    rw [hrow] at hperm hsorted
    have hdef : readLatest keyMatch upd store
        = (some top, rest.foldl (fun st stale => st.erase stale) store) := by
      simp only [readLatest]
      rw [hrow]
    have htopmem : top ∈ store.filter keyMatch := hperm.mem_iff.mp (by simp)
    have htopkey : keyMatch top = true := List.of_mem_filter htopmem
    have hrestkey : ∀ x ∈ rest, keyMatch x = true := fun x hx =>
      List.of_mem_filter (hperm.mem_iff.mp (by simp [hx]))
    refine ⟨top, by rw [hdef], htopmem, ?_, ?_, ?_⟩
    · intro x hx
      rcases List.mem_cons.mp (hperm.mem_iff.mpr hx) with hx' | hx'
      · rw [hx']
      · exact (List.sorted_cons.mp hsorted).1 x hx'
    · rw [hdef]
      apply List.perm_singleton.mp
      apply List.perm_iff_count.mpr
      intro a
      cases hpa : keyMatch a
      · rw [count_filter_neg _ _ _ hpa]
        have hta : (top == a) = false := by
          cases hbe : top == a
          · rfl
          · exfalso; rw [eq_of_beq hbe, hpa] at htopkey; cases htopkey
        simp [List.count_cons, hta]
      · rw [count_filter_pos _ _ _ hpa, count_foldl_erase rest store a]
        have hm : (store.filter keyMatch).count a = store.count a :=
          count_filter_pos _ _ _ hpa
        have hcnt := List.perm_iff_count.mp hperm a
        rw [hm, List.count_cons] at hcnt
        simp only [List.count_cons, List.count_nil]
        cases hta : top == a <;> simp [hta] at hcnt ⊢ <;> omega
    · rw [hdef]
      exact filter_foldl_erase_neg _ rest store (fun x hx => by simp [hrestkey x hx])

/-- C5: when storage holds more than one `YearStats` row for the same
`(username, year)` key — and likewise more than one valid token row for the
same username — a read through the repository returns a matching row with the
greatest `updated_at`, leaves that row as the only matching row in storage
(all other matching rows are deleted), and leaves non-matching rows
untouched. -/
theorem claim5_read_reconciles (store : List YearbookStats) (u : String) (y : Nat)
    (tstore : List UserToken) (tu : String)
    (h1 : 1 < (store.filter (statsMatch u y)).length)
    (h2 : 1 < (tstore.filter (tokenMatch tu)).length) :
    (∃ top, (statsGetCached store u y).1 = some top
      ∧ top ∈ store.filter (statsMatch u y)
      ∧ (∀ x ∈ store.filter (statsMatch u y), x.updated_at ≤ top.updated_at)
      ∧ (statsGetCached store u y).2.filter (statsMatch u y) = [top]
      ∧ (statsGetCached store u y).2.filter (fun r => !(statsMatch u y r))
          = store.filter (fun r => !(statsMatch u y r)))
    ∧ (∃ ttop, (tokenGetByUsername tstore tu).1 = some ttop
      ∧ ttop ∈ tstore.filter (tokenMatch tu)
      ∧ (∀ x ∈ tstore.filter (tokenMatch tu), x.updated_at ≤ ttop.updated_at)
      ∧ (tokenGetByUsername tstore tu).2.filter (tokenMatch tu) = [ttop]
      ∧ (tokenGetByUsername tstore tu).2.filter (fun r => !(tokenMatch tu r))
          = tstore.filter (fun r => !(tokenMatch tu r))) := by
  constructor
  · exact readLatest_reconciles (statsMatch u y) (fun r => r.updated_at) store
      (by intro hnil; rw [hnil] at h1; simp at h1)
  · exact readLatest_reconciles (tokenMatch tu) (fun r => r.updated_at) tstore
      (by intro hnil; rw [hnil] at h2; simp at h2)

/-- Older duplicate row for the C5 witness. -/
def c5s1 : YearbookStats := { c6row with updated_at := 100 }

/-- Newer duplicate row for the C5 witness. -/
def c5s2 : YearbookStats := { c6row with updated_at := 200 }

/-- Older duplicate token for the C5 witness. -/
def c5t1 : UserToken :=
  { username := "alice", github_token := "tokA", is_valid := true, updated_at := 10 }

/-- Newer duplicate token for the C5 witness. -/
def c5t2 : UserToken := { c5t1 with github_token := "tokB", updated_at := 20 }

/-- C5 witness: for two duplicate stats rows and two duplicate valid token
rows, the read collapses each store to the newer row and returns it. -/
theorem claim5_witness :
    (∃ top, (statsGetCached [c5s1, c5s2] "alice" 2023).1 = some top
      ∧ top ∈ [c5s1, c5s2].filter (statsMatch "alice" 2023)
      ∧ (∀ x ∈ [c5s1, c5s2].filter (statsMatch "alice" 2023), x.updated_at ≤ top.updated_at)
      ∧ (statsGetCached [c5s1, c5s2] "alice" 2023).2.filter (statsMatch "alice" 2023) = [top]
      ∧ (statsGetCached [c5s1, c5s2] "alice" 2023).2.filter
            (fun r => !(statsMatch "alice" 2023 r))
          = [c5s1, c5s2].filter (fun r => !(statsMatch "alice" 2023 r)))
    ∧ (∃ ttop, (tokenGetByUsername [c5t1, c5t2] "alice").1 = some ttop
      ∧ ttop ∈ [c5t1, c5t2].filter (tokenMatch "alice")
      ∧ (∀ x ∈ [c5t1, c5t2].filter (tokenMatch "alice"), x.updated_at ≤ ttop.updated_at)
      ∧ (tokenGetByUsername [c5t1, c5t2] "alice").2.filter (tokenMatch "alice") = [ttop]
      ∧ (tokenGetByUsername [c5t1, c5t2] "alice").2.filter (fun r => !(tokenMatch "alice" r))
          = [c5t1, c5t2].filter (fun r => !(tokenMatch "alice" r))) :=
  claim5_read_reconciles [c5s1, c5s2] "alice" 2023 [c5t1, c5t2] "alice"
    (by decide) (by decide)

theorem map_some_eq_ok {e a : Type} {x : Except e a} {m : a}
    (h : Except.map some x = Except.ok (some m)) : x = Except.ok m := by
  cases x with
  | error er => exact absurd h (by simp [Except.map])
  | ok v =>
    simp [Except.map] at h
    rw [h]

theorem modelToDict_repos_sorted (stats : YearbookStats) (c : Bool) :
    List.Sorted repoGe (modelToDict stats c).repositoryContributions :=
  List.sorted_insertionSort repoGe stats.top_repos

theorem mergeStatsDicts_repos_sorted (l : List StatsDict) (sd ed : Date) (m : StatsDict)
    (h : mergeStatsDicts l sd ed = some m) :
    List.Sorted repoGe m.repositoryContributions := by
  unfold mergeStatsDicts at h
  split at h
  · cases h
  · cases h
    exact List.sorted_insertionSort repoGe _

theorem fallbackRange_ok_sorted (fetch : String → String → Except PyErr RawData)
    (u : String) (y : Nat) (ts te : String) (v : StatsDict)
    (h : fallbackRange fetch u y ts te = .ok v) :
    List.Sorted repoGe v.repositoryContributions := by
  unfold fallbackRange at h
  split at h
  · cases h
  · split at h
    · cases h
      exact modelToDict_repos_sorted _ _
    · cases h

theorem getStatsYear_ok_sorted (cacheHit : Option StatsDict)
    (fetch : Except PyErr RawData) (u : String) (y : Nat) (frc : Bool) (v : StatsDict)
    (hcache : ∀ hit, cacheHit = some hit → List.Sorted repoGe hit.repositoryContributions)
    (h : getStatsYear cacheHit fetch u y frc = .ok v) :
    List.Sorted repoGe v.repositoryContributions := by
  rcases frc with _ | _
  · rcases hch : cacheHit with _ | hit
    · rcases hf : fetch with e | raw
      · simp [getStatsYear, hch, hf] at h
      · simp only [getStatsYear, hch, hf, if_neg] at h
        simp at h
        rw [← h]
        exact modelToDict_repos_sorted _ _
    · simp only [getStatsYear, hch] at h
      simp at h
      rw [← h]
      exact hcache hit hch
  · rcases hf : fetch with e | raw
    · simp [getStatsYear, hf] at h
    · simp only [getStatsYear, hf] at h
      simp at h
      rw [← h]
      exact modelToDict_repos_sorted _ _

/-- C10: every result dict the service can return carries
`repositoryContributions` sorted by descending `(count, stars)`: the dicts
built by `_model_to_dict` (cache hits and fresh single-year fetches), the
dicts served by `_get_cached_stats`, and — provided the cache oracle serves
only such dicts, as `_get_cached_stats` does — every successful result of
`get_stats` on any path, merged or not. -/
theorem claim10_repos_sorted :
    (∀ (stats : YearbookStats) (c : Bool),
      List.Sorted repoGe (modelToDict stats c).repositoryContributions)
    ∧ (∀ (nowYear : Nat) (now : Int) (store : List YearbookStats) (u : String) (y : Nat)
        (d : StatsDict) (store' : List YearbookStats),
        getCachedStats nowYear now store u y = (some d, store') →
        List.Sorted repoGe d.repositoryContributions)
    ∧ (∀ (cacheF : Nat → Option StatsDict) (yearFetch : Nat → Except PyErr RawData)
        (rangeFetch : String → String → Except PyErr RawData) (u : String) (y : Nat)
        (sd ed : Option String) (frc : Bool) (m : StatsDict),
        (∀ (yy : Nat) (hitm : StatsDict), cacheF yy = some hitm →
          List.Sorted repoGe hitm.repositoryContributions) →
        getStatsTop cacheF yearFetch rangeFetch u y sd ed frc = .ok (some m) →
        List.Sorted repoGe m.repositoryContributions) := by
  refine ⟨modelToDict_repos_sorted, ?_, ?_⟩
  · intro nowYear now store u y d store' h
    unfold getCachedStats at h
    split at h
    · simp at h
    · rename_i cached st _
      by_cases hlt : now - cached.updated_at
          < (if y < nowYear then (30 * 86400 : Int) else 24 * 3600)
      · rw [if_pos hlt] at h
        cases h
        exact modelToDict_repos_sorted _ _
      · rw [if_neg hlt] at h
        simp at h
  · intro cacheF yearFetch rangeFetch u y sd ed frc m hc h
    unfold getStatsTop at h
    dsimp only at h
    split at h
    · split at h
      · split at h
        · injection h with h2
          exact mergeStatsDicts_repos_sorted _ _ _ m h2
        · split at h
          · exact fallbackRange_ok_sorted _ _ _ _ _ _ (map_some_eq_ok h)
          · exact Except.noConfusion h
      · exact fallbackRange_ok_sorted _ _ _ _ _ _ (map_some_eq_ok h)
    · exact getStatsYear_ok_sorted _ _ _ _ _ _ (fun hit hh => hc y hit hh) (map_some_eq_ok h)

/-- Cached row for the C10 witness, carrying deliberately unsorted repos. -/
def c10row : YearbookStats :=
  { username := "alice", year := 2023
    avatar_url := none, bio := none, company := none, location := none
    followers := 0, following := 0
    total_contributions := 7, total_commits := 0
    pull_requests := 0, pull_request_reviews := 0, issues := 0
    longest_streak := 1, current_streak := 1, active_days := 1, repo_count := 2
    public_repo_count := 0, private_repo_count := 0, total_repo_count := 0
    daily_contributions := [⟨⟨2023,12,31⟩, 7⟩]
    language_stats := []
    top_repos :=
      [{ repo := some "small", name := none, count := 2, stars := 9 },
       { repo := some "big", name := none, count := 5, stars := 1 }]
    organizations := []
    updated_at := 0 }

/-- Cache oracle for the C10 witness: every year hits. -/
def c10cache : Nat → Option StatsDict := fun _ => some (modelToDict c10row true)

/-- C10 witness: the cache-hit result of a concrete plain-year `get_stats`
call has its repositories sorted. -/
theorem claim10_witness :
    List.Sorted repoGe ((modelToDict c10row true).repositoryContributions) :=
  claim10_repos_sorted.2.2 c10cache (fun _ => .error (.other "net"))
    (fun _ _ => .error (.other "net")) "alice" 2023 none none false
    (modelToDict c10row true)
    (fun _ hitm hh => by
      injection hh with h2
      rw [← h2]
      exact modelToDict_repos_sorted c10row true)
    rfl

/-- C4 (amended): when the custom range parses and any gathered per-year
sub-request fails, `get_stats` never merges the successful years alone —
a non-`ValueError` failure propagates and the whole call fails, while a
`ValueError` failure is swallowed by the `except ValueError` clause and the
call falls back to one direct fetch of the entire raw range.  The second
conjunct records that `gather` fails exactly when some sub-request fails. -/
theorem claim4_amended (cacheF : Nat → Option StatsDict)
    (yearFetch : Nat → Except PyErr RawData)
    (rangeFetch : String → String → Except PyErr RawData) (u : String) (y : Nat)
    (ts te : String) (frc : Bool) (sd ed : Date) (e : PyErr)
    (hts : ts ≠ "")
    (hps : parseDate ts = some sd) (hpe : parseDate te = some ed)
    (hg : gatherE ((rangeIncl sd.year ed.year).map
        (fun yy => getStatsYear (cacheF yy) (yearFetch yy) u yy frc)) = .error e) :
    (getStatsTop cacheF yearFetch rangeFetch u y (some ts) (some te) frc
        = if e.isValueError then (fallbackRange rangeFetch u y ts te).map some
          else .error e)
    ∧ (∀ (l : List (Except PyErr StatsDict)),
        (∃ er, Except.error er ∈ l) ↔ ∃ er, gatherE l = Except.error er) := by
  constructor
  · have hte : te ≠ "" := by
      intro hc
      rw [hc] at hpe
      rw [(by decide : parseDate "" = none)] at hpe
      exact Option.noConfusion hpe
    unfold getStatsTop
    dsimp only
    rw [show pyGetOr (some ts) (natToYearStr y ++ "-01-01") = ts by
        simp [pyGetOr, hts],
      show pyGetOr (some te) (natToYearStr y ++ "-12-31") = te by
        simp [pyGetOr, hte],
      show (pyTruthy (some ts) || pyTruthy (some te)) = true by
        simp [pyTruthy, hts],
      if_pos rfl, hps, hpe]
    simp only [hg]
  · intro l
    constructor
    · rintro ⟨er, hmem⟩
      induction l with
      | nil => cases hmem
      | cons x xs ih =>
        rcases List.mem_cons.mp hmem with hx | hx
        · rw [← hx]
          exact ⟨er, rfl⟩
        · rcases x with e' | v
          · exact ⟨e', rfl⟩
          · rcases ih hx with ⟨er', her'⟩
            refine ⟨er', ?_⟩
            unfold gatherE
            rw [her']
    · rintro ⟨er, her⟩
      induction l with
      | nil => cases her
      | cons x xs ih =>
        rcases x with e' | v
        · exact ⟨e', by simp⟩
        · unfold gatherE at her
          rcases hxs : gatherE xs with e'' | vs
          · rw [hxs] at her
            injection her with h2
            rcases ih (h2 ▸ hxs) with ⟨er0, hmem0⟩
            exact ⟨er0, List.mem_cons_of_mem _ hmem0⟩
          · rw [hxs] at her
            cases her

/-- The cached 2023 per-year result for the C4 counterexample. -/
def c4hit : StatsDict :=
  { username := "alice", year := 2023
    avatarUrl := none, bio := none, company := none, location := none
    followers := 0, following := 0
    totalContributions := 4, totalCommits := 0
    pullRequests := 0, pullRequestReviews := 0, issues := 0
    longestStreak := 1, currentStreak := 1, activeDays := 1, repoCount := 0
    publicRepoCount := 0, privateRepoCount := 0, totalRepoCount := 0
    dailyContributions := [⟨⟨2023,12,31⟩, 4⟩]
    languageStats := [], repositoryContributions := [], organizations := []
    cached := true }

/-- Cache oracle for C4: 2023 hits, 2024 misses. -/
def c4cache : Nat → Option StatsDict := fun yy => if yy == 2023 then some c4hit else none

/-- Per-year provider for C4: the (2024) fetch raises a `ValueError`. -/
def c4fetch : Nat → Except PyErr RawData := fun _ => .error (.valueError "boom")

/-- Raw full-range data served to the C4 fallback path. -/
def c4raw : RawData :=
  { username := some "alice"
    avatarUrl := none, bio := none, company := none, location := none
    followers := 0, following := 0
    publicRepos := 0, privateRepos := 0, totalRepos := 0
    totalContributions := 5, totalCommits := 0
    pullRequests := 0, pullRequestReviews := 0, issues := 0
    dailyContributions := [⟨⟨2023,12,31⟩, 4⟩, ⟨⟨2024,1,1⟩, 1⟩]
    repositoryContributions := [], languageStats := [], organizations := []
    activeDays := none }

/-- Range provider for C4: the fallback raw fetch succeeds. -/
def c4range : String → String → Except PyErr RawData := fun _ _ => .ok c4raw

/-- C4, counterexample: the 2024 sub-request of the custom range
`[2023-11-01, 2024-02-01]` fails (with a `ValueError`), yet `get_stats` does
not fail as a whole: the `except ValueError: pass` clause silently falls back
to a direct full-range fetch and the call returns a result. -/
theorem claim4_cex :
    getStatsYear (c4cache 2024) (c4fetch 2024) "alice" 2024 false
      = .error (.valueError "boom")
    ∧ (∃ v, getStatsTop c4cache c4fetch c4range "alice" 2023
        (some "2023-11-01") (some "2024-02-01") false = .ok v) :=
  ⟨rfl, ⟨_, rfl⟩⟩

/-- C4 witness: on the concrete failing range the call equals the fallback
full-range fetch result — not a merge of the successful years and not an
error. -/
theorem claim4_witness :
    getStatsTop c4cache c4fetch c4range "alice" 2023
        (some "2023-11-01") (some "2024-02-01") false
      = (fallbackRange c4range "alice" 2023 "2023-11-01" "2024-02-01").map some := by
  have h := (claim4_amended c4cache c4fetch c4range "alice" 2023 "2023-11-01" "2024-02-01"
      false ⟨2023,11,1⟩ ⟨2024,2,1⟩ (.valueError "boom") (by decide) (by decide) (by decide)
      (by decide)).1
  simpa [PyErr.isValueError] using h

theorem upsert_mem {m : List (Date × Int)} {k : Date} {v : Int} {p : Date × Int}
    (h : p ∈ upsert m k v) : p ∈ m ∨ p = (k, v) := by
  unfold upsert at h
  split at h
  · rcases List.mem_map.mp h with ⟨q, hq, hqe⟩
    by_cases hqk : q.1 == k
    · rw [if_pos hqk] at hqe
      exact Or.inr hqe.symm
    · rw [if_neg hqk] at hqe
      exact Or.inl (hqe ▸ hq)
  · rcases List.mem_append.mp h with hp | hp
    · exact Or.inl hp
    · exact Or.inr (List.mem_singleton.mp hp)

theorem dict_mem_source :
    ∀ (days : List DayEntry) (acc : List (Date × Int)) (p : Date × Int),
      p ∈ days.foldl (fun m d => upsert m d.date d.count) acc →
      p ∈ acc ∨ ∃ e ∈ days, e.date = p.1 ∧ e.count = p.2 := by
  intro days
  induction days with
  | nil => intro acc p h; exact Or.inl h
  | cons d ds ih =>
    intro acc p h
    rcases ih (upsert acc d.date d.count) p h with hacc | ⟨e, he, hed⟩
    · rcases upsert_mem hacc with hm | hp
      · exact Or.inl hm
      · exact Or.inr ⟨d, by simp, by rw [hp]; exact ⟨rfl, rfl⟩⟩
    · exact Or.inr ⟨e, by simp [he], hed⟩

theorem lookup_mem {m : List (Date × Int)} {k : Date} {v : Int}
    (h : lookupCount m k = some v) : (k, v) ∈ m := by
  induction m with
  | nil => cases h
  | cons p rest ih =>
    unfold lookupCount at h
    split at h
    · rename_i hpk
      cases h
      have hp1 : p.1 = k := by simpa using hpk
      have hp : p = (k, p.2) := Prod.ext_iff.mpr ⟨hp1, rfl⟩
      rw [← hp]
      exact List.mem_cons_self _ _
    · exact List.mem_cons_of_mem _ (ih h)

theorem backRun_zero {m : List (Date × Int)} (hm : ∀ p ∈ m, p.2 ≤ 0) :
    ∀ (fuel : Nat) (d : Date), backRun m fuel d = 0 := by
  intro fuel
  induction fuel with
  | zero => intro d; rfl
  | succ k ih =>
    intro d
    unfold backRun
    cases hl : lookupCount m d with
    | none => simp only [hl]
    | some c =>
      have hc : c ≤ 0 := hm (d, c) (lookup_mem hl)
      simp only [hl]
      rw [if_neg (by omega : ¬ (0 : Int) < c)]

theorem lookup_map_replace (m : List (Date × Int)) (k : Date) (v : Int)
    (hany : (m.any fun p => p.1 == k) = true) :
    lookupCount (m.map (fun p => if p.1 == k then (k, v) else p)) k = some v := by
  induction m with
  | nil => cases hany
  | cons p rest ih =>
    by_cases hpk : (p.1 == k) = true
    · rw [List.map_cons, if_pos hpk]
      unfold lookupCount
      rw [if_pos (by simp)]
    · rw [List.map_cons, if_neg hpk]
      unfold lookupCount
      rw [if_neg hpk]
      exact ih (by simpa [List.any_cons, hpk] using hany)

theorem lookup_append_single (m : List (Date × Int)) (k : Date) (v : Int)
    (hnone : ∀ p ∈ m, (p.1 == k) = false) :
    lookupCount (m ++ [(k, v)]) k = some v := by
  induction m with
  | nil =>
    rw [List.nil_append]
    unfold lookupCount
    rw [if_pos (by simp)]
  | cons p rest ih =>
    rw [List.cons_append]
    unfold lookupCount
    rw [if_neg (by simp [hnone p (by simp)])]
    exact ih (fun q hq => hnone q (by simp [hq]))

theorem lookup_upsert_self (m : List (Date × Int)) (k : Date) (v : Int) :
    lookupCount (upsert m k v) k = some v := by
  unfold upsert
  split
  · exact lookup_map_replace m k v (by assumption)
  · rename_i hany
    refine lookup_append_single m k v ?_
    intro p hp
    cases hb : p.1 == k
    · rfl
    · exact absurd (List.any_eq_true.mpr ⟨p, hp, hb⟩) hany

theorem lookup_map_replace_other (m : List (Date × Int)) (k k' : Date) (v : Int)
    (hk : k' ≠ k) :
    lookupCount (m.map (fun p => if p.1 == k then (k, v) else p)) k'
      = lookupCount m k' := by
  induction m with
  | nil => rfl
  | cons p rest ih =>
    by_cases hpk : (p.1 == k) = true
    · rw [List.map_cons, if_pos hpk]
      unfold lookupCount
      have hp1 : p.1 = k := by simpa using hpk
      rw [if_neg (by simpa using hk.symm), if_neg (by rw [hp1]; simpa using hk.symm)]
      exact ih
    · rw [List.map_cons, if_neg hpk]
      unfold lookupCount
      by_cases hpk' : (p.1 == k') = true
      · rw [if_pos hpk', if_pos hpk']
      · rw [if_neg hpk', if_neg hpk']
        exact ih

theorem lookup_append_single_other (m : List (Date × Int)) (k k' : Date) (v : Int)
    (hk : k' ≠ k) :
    lookupCount (m ++ [(k, v)]) k' = lookupCount m k' := by
  induction m with
  | nil =>
    rw [List.nil_append]
    unfold lookupCount
    rw [if_neg (by simpa using hk.symm)]
    rfl
  | cons p rest ih =>
    rw [List.cons_append]
    unfold lookupCount
    by_cases hpk' : (p.1 == k') = true
    · rw [if_pos hpk', if_pos hpk']
    · rw [if_neg hpk', if_neg hpk']
      exact ih

theorem lookup_upsert_other (m : List (Date × Int)) (k k' : Date) (v : Int)
    (hk : k' ≠ k) : lookupCount (upsert m k v) k' = lookupCount m k' := by
  unfold upsert
  split
  · exact lookup_map_replace_other m k k' v hk
  · exact lookup_append_single_other m k k' v hk

theorem foldl_lookup_skip :
    ∀ (days : List DayEntry) (acc : List (Date × Int)) (k : Date),
      (∀ e ∈ days, e.date ≠ k) →
      lookupCount (days.foldl (fun m d => upsert m d.date d.count) acc) k
        = lookupCount acc k := by
  intro days
  induction days with
  | nil => intro acc k _; rfl
  | cons d ds ih =>
    intro acc k hne
    rw [List.foldl_cons, ih _ k (fun e he => hne e (by simp [he])),
      lookup_upsert_other _ _ _ _ (fun hc => hne d (by simp) hc.symm)]

theorem dict_lookup_nodup :
    ∀ (days : List DayEntry) (acc : List (Date × Int)) (e : DayEntry),
      e ∈ days → (days.map (·.date)).Nodup →
      lookupCount (days.foldl (fun m d => upsert m d.date d.count) acc) e.date
        = some e.count := by
  intro days
  induction days with
  | nil => intro acc e he _; cases he
  | cons d ds ih =>
    intro acc e he hnd
    rw [List.map_cons, List.nodup_cons] at hnd
    rcases List.mem_cons.mp he with hed | hed
    · subst hed
      rw [List.foldl_cons,
        foldl_lookup_skip ds _ e.date (fun e' he' hc => hnd.1 (by
          rw [← hc]
          exact List.mem_map_of_mem _ he')),
        lookup_upsert_self]
    · exact ih _ e hed hnd.2

theorem sorted_getLastq_max {α : Type} {r : α → α → Prop} (hrefl : ∀ a, r a a) :
    ∀ (l : List α) (e : α), List.Sorted r l → l.getLast? = some e → ∀ x ∈ l, r x e := by
  intro l
  induction l with
  | nil => intro e _ he; cases he
  | cons a t ih =>
    intro e hs he x hx
    cases t with
    | nil =>
      have ha : a = e := by
        have : some a = some e := he
        injection this
      rcases List.mem_singleton.mp hx with hxa
      rw [hxa, ha]
      exact hrefl e
    | cons b t' =>
      have he' : (b :: t').getLast? = some e := by rwa [List.getLast?_cons_cons] at he
      rcases List.mem_cons.mp hx with hxa | hxt
      · subst hxa
        exact (List.sorted_cons.mp hs).1 e (List.mem_of_mem_getLast? he')
      · exact ih e (List.sorted_cons.mp hs).2 he' x hxt

theorem listMax_eq_none : ∀ (t : List Date), listMax t = none → t = [] := by
  intro t h
  cases t with
  | nil => rfl
  | cons a t' =>
    unfold listMax at h
    cases h2 : listMax t' with
    | none =>
      simp only [h2] at h
      exact Option.noConfusion h
    | some m =>
      simp only [h2] at h
      split at h <;> cases h

theorem listMax_spec : ∀ (ds : List Date) (mx : Date), listMax ds = some mx →
    mx ∈ ds ∧ ∀ x ∈ ds, Date.lex x mx := by
  intro ds
  induction ds with
  | nil => intro mx h; cases h
  | cons d t ih =>
    intro mx h
    unfold listMax at h
    cases ht : listMax t with
    | none =>
      simp only [ht] at h
      cases h
      have hte := listMax_eq_none t ht
      subst hte
      refine ⟨by simp, ?_⟩
      intro x hx
      rcases List.mem_singleton.mp hx with hxd
      rw [hxd]
      exact Date.lex_refl _
    | some m' =>
      simp only [ht] at h
      rcases ih m' ht with ⟨hmem, hbnd⟩
      by_cases hlex : Date.lex d m'
      · rw [if_pos hlex] at h
        cases h
        refine ⟨List.mem_cons_of_mem _ hmem, ?_⟩
        intro x hx
        rcases List.mem_cons.mp hx with hxd | hxt
        · rw [hxd]; exact hlex
        · exact hbnd x hxt
      · rw [if_neg hlex] at h
        cases h
        have hmd : Date.lex m' d := (Date.lex_total d m').resolve_left hlex
        refine ⟨by simp, ?_⟩
        intro x hx
        rcases List.mem_cons.mp hx with hxd | hxt
        · rw [hxd]; exact Date.lex_refl _
        · exact Date.lex_trans (hbnd x hxt) hmd

theorem anchor_eq (al : List DayEntry) :
    ((List.insertionSort dayLe al).getLast?).map (fun d => d.date)
      = listMax (al.map (fun d => d.date)) := by
  have hperm := List.perm_insertionSort dayLe al
  cases hs : (List.insertionSort dayLe al).getLast? with
  | none =>
    have hnil : List.insertionSort dayLe al = [] := List.getLast?_eq_none_iff.mp hs
    rw [hnil] at hperm
    rw [hperm.symm.eq_nil]
    rfl
  | some e =>
    have hsorted := List.sorted_insertionSort dayLe al
    have hbound := sorted_getLastq_max (r := dayLe) (fun a => Date.lex_refl a.date)
      _ e hsorted hs
    have hmem : e ∈ al := hperm.mem_iff.mp (List.mem_of_mem_getLast? hs)
    cases hmx : listMax (al.map (fun d => d.date)) with
    | none =>
      have hmapnil := listMax_eq_none _ hmx
      rw [List.map_eq_nil_iff] at hmapnil
      rw [hmapnil] at hmem
      cases hmem
    | some mx =>
      rcases listMax_spec _ mx hmx with ⟨hmxmem, hmxbnd⟩
      have h1 : Date.lex e.date mx := hmxbnd e.date (List.mem_map_of_mem _ hmem)
      rcases List.mem_map.mp hmxmem with ⟨xe, hxe, hxedate⟩
      have h2 : Date.lex mx e.date := by
        rw [← hxedate]
        exact hbound xe (hperm.mem_iff.mpr hxe)
      show some e.date = some mx
      exact congrArg some (Date.lex_antisymm h1 h2)

theorem mergeCurrent_eq_spec (days : List DayEntry) :
    mergeCurrent days = specCurrentStreak days := by
  have h := anchor_eq (days.filter (fun d => 0 < d.count))
  cases hs : (List.insertionSort dayLe (days.filter fun d => 0 < d.count)).getLast? with
  | none =>
    have h2 : listMax ((days.filter fun d => 0 < d.count).map (fun d => d.date)) = none := by
      rw [← h, hs]
      rfl
    simp only [mergeCurrent, specCurrentStreak, hs, h2]
  | some e =>
    have h2 : listMax ((days.filter fun d => 0 < d.count).map (fun d => d.date))
        = some e.date := by
      rw [← h, hs]
      rfl
    simp only [mergeCurrent, specCurrentStreak, hs, h2]

/-- Raw dataset for claim C3: one active day followed by a zero-count day. -/
def c3raw : RawData :=
  { username := some "alice"
    avatarUrl := none, bio := none, company := none, location := none
    followers := 0, following := 0
    publicRepos := 0, privateRepos := 0, totalRepos := 0
    totalContributions := 5, totalCommits := 0
    pullRequests := 0, pullRequestReviews := 0, issues := 0
    dailyContributions := [⟨⟨2024,1,1⟩, 5⟩, ⟨⟨2024,1,2⟩, 0⟩]
    repositoryContributions := [], languageStats := [], organizations := []
    activeDays := none }

/-- C3, counterexample: on a dataset whose single active day 2024-01-01 is
followed by a zero-count day 2024-01-02, `_process_stats` starts its backward
walk at the latest date present in the **full** daily map (the zero-count
2024-01-02) and reports `currentStreak = 0`, while the claimed rule — walk
from the latest date of the **active-day** set — yields 1 (this input also
has exactly one active day, for which the claim requires 1). -/
theorem claim3_cex :
    (processStats "alice" 2024 c3raw).current_streak = 0
    ∧ c3raw.dailyContributions.filter (fun e => 0 < e.count) = [⟨⟨2024,1,1⟩, 5⟩]
    ∧ specCurrentStreak c3raw.dailyContributions = 1 := by
  refine ⟨by decide, by decide, by decide⟩

/-- C3 (amended): the merge path (`_merge_stats_dicts`) computes
`currentStreak` exactly as the spec describes — backward walk from the latest
date in the active-day set; with no active day both paths yield 0, and with
exactly one active day the spec walk (hence the merge path) yields 1.  The
single-year path (`_process_stats`), however, anchors its walk at the latest
date present in the full daily map, so it yields 0 whenever that date has a
non-positive count. -/
theorem claim3_amended :
    (∀ (l : List StatsDict) (sd ed : Date) (m : StatsDict),
      mergeStatsDicts l sd ed = some m →
      m.currentStreak = specCurrentStreak m.dailyContributions)
    ∧ (∀ days : List DayEntry, days.filter (fun e => 0 < e.count) = [] →
        specCurrentStreak days = 0 ∧ processCurrent days = 0)
    ∧ (∀ (days : List DayEntry) (d : DayEntry),
        days.filter (fun e => 0 < e.count) = [d] →
        (days.map (fun e => e.date)).Nodup →
        specCurrentStreak days = 1)
    ∧ (∀ (u : String) (y : Nat) (data : RawData),
        (processStats u y data).current_streak = processCurrent data.dailyContributions)
    ∧ (∀ (days : List DayEntry) (anchor : Date) (c : Int),
        fullMapAnchor days = some anchor →
        lookupCount (dictOfDays days) anchor = some c → c ≤ 0 →
        processCurrent days = 0) := by
  refine ⟨?_, ?_, ?_, ?_, ?_⟩
  · intro l sd ed m h
    unfold mergeStatsDicts at h
    split at h
    · cases h
    · cases h
      exact mergeCurrent_eq_spec _
  · intro days hf
    have hall : ∀ p ∈ dictOfDays days, p.2 ≤ 0 := by
      intro p hp
      rcases dict_mem_source days [] p hp with hacc | ⟨e, he, _, hcount⟩
      · cases hacc
      · have : ¬ (0 < e.count) := by
          intro hpos
          have hmem : e ∈ days.filter (fun e => 0 < e.count) :=
            List.mem_filter.mpr ⟨he, by simpa using hpos⟩
          rw [hf] at hmem
          cases hmem
        omega
    constructor
    · simp [specCurrentStreak, hf, listMax]
    · unfold processCurrent
      cases hfa : fullMapAnchor days with
      | none => rfl
      | some last => exact backRun_zero hall _ _
  · intro days d hf hnd
    have hdfil : d ∈ days.filter (fun e => 0 < e.count) := by rw [hf]; simp
    have hdmem : d ∈ days := List.mem_of_mem_filter hdfil
    have hdact : (0 : Int) < d.count := by simpa using (List.mem_filter.mp hdfil).2
    have hstop : ∀ k', backRun (dictOfDays days) k' (Date.pred d.date) = 0 := by
      intro k'
      cases k' with
      | zero => rfl
      | succ k'' =>
        unfold backRun
        cases hl : lookupCount (dictOfDays days) (Date.pred d.date) with
        | none => simp only [hl]
        | some c =>
          simp only [hl]
          have hcle : c ≤ 0 := by
            by_contra hgt
            rcases dict_mem_source days [] _ (lookup_mem hl) with hacc | ⟨e, he, hdate, hcount⟩
            · cases hacc
            · have hmem : e ∈ days.filter (fun e => 0 < e.count) :=
                List.mem_filter.mpr ⟨he, by simp; omega⟩
              rw [hf] at hmem
              rcases List.mem_singleton.mp hmem with hed
              rw [hed] at hdate
              exact absurd hdate.symm (Date.pred_ne d.date)
          rw [if_neg (by omega : ¬ (0 : Int) < c)]
    have hlm : listMax ((days.filter (fun e => 0 < e.count)).map (fun e => e.date))
        = some d.date := by rw [hf]; rfl
    simp only [specCurrentStreak, hlm]
    cases hlen : days.length with
    | zero =>
      rw [List.length_eq_zero] at hlen
      rw [hlen] at hdmem
      cases hdmem
    | succ k =>
      unfold backRun
      have hlk : lookupCount (dictOfDays days) d.date = some d.count :=
        dict_lookup_nodup days [] d hdmem hnd
      simp only [hlk]
      rw [if_pos hdact, hstop k]
  · intro u y data
    rfl
  · intro days anchor c hfa hl hc
    unfold processCurrent
    rw [hfa]
    cases hlen : days.length with
    | zero => rfl
    | succ k =>
      unfold backRun
      simp only [hl]
      rw [if_neg (by omega : ¬ (0 : Int) < c)]

/-- Cached yearly dict feeding the C3 witness merge. -/
def c3dict : StatsDict :=
  { username := "alice", year := 2024
    avatarUrl := none, bio := none, company := none, location := none
    followers := 0, following := 0
    totalContributions := 5, totalCommits := 0
    pullRequests := 0, pullRequestReviews := 0, issues := 0
    longestStreak := 1, currentStreak := 0, activeDays := 1, repoCount := 0
    publicRepoCount := 0, privateRepoCount := 0, totalRepoCount := 0
    dailyContributions := [⟨⟨2024,1,1⟩, 5⟩, ⟨⟨2024,1,2⟩, 0⟩]
    languageStats := [], repositoryContributions := [], organizations := []
    cached := true }

/-- C3 witness: the spec walk gives 1 on a single active day and 0 with no
active day; `_process_stats` gives 0 when the latest map date is inactive;
and on a concrete merge the merged `currentStreak` equals the spec walk. -/
theorem claim3_witness :
    specCurrentStreak [(⟨⟨2024,1,1⟩, 5⟩ : DayEntry)] = 1
    ∧ specCurrentStreak ([] : List DayEntry) = 0
    ∧ processCurrent ([⟨⟨2024,1,1⟩, 0⟩] : List DayEntry) = 0
    ∧ (mergeStatsDicts [c3dict] ⟨2024,1,1⟩ ⟨2024,12,31⟩).map (fun m => m.currentStreak)
        = (mergeStatsDicts [c3dict] ⟨2024,1,1⟩ ⟨2024,12,31⟩).map
            (fun m => specCurrentStreak m.dailyContributions) := by
  refine ⟨?_, ?_, ?_, ?_⟩
  · exact claim3_amended.2.2.1 [⟨⟨2024,1,1⟩, 5⟩] ⟨⟨2024,1,1⟩, 5⟩ (by decide) (by decide)
  · exact (claim3_amended.2.1 [] (by decide)).1
  · exact claim3_amended.2.2.2.2 [⟨⟨2024,1,1⟩, 0⟩] ⟨2024,1,1⟩ 0
      (by decide) (by decide) (by decide)
  · cases hm : mergeStatsDicts [c3dict] ⟨2024,1,1⟩ ⟨2024,12,31⟩ with
    | none => exact absurd hm (by decide)
    | some m =>
      have h := claim3_amended.1 [c3dict] ⟨2024,1,1⟩ ⟨2024,12,31⟩ m hm
      simp [h]
